import Mathlib

/-!
Verification development for the MyFootDr clinic scraper (src/scraper.py).

The Python source is shallowly embedded: pure string-processing helpers
become Lean functions on `String` / `List Char`; the HTTP session, the
parsed HTML pages and the CSV file are modelled as explicit data passed
to the embedded functions (a `World` record of fetch results, pages
modelled as functions from CSS-selector strings to the lists of links or
articles they match, and the output file as the list of rows written, in
order).  Python regular expressions are translated to executable
character-list predicates over the ASCII fragment of Python's `\w`, `\d`
and `\s` classes (the source site is ASCII; the Unicode extension of
those classes is orthogonal to every claim below).  Machine integers do
not occur; retry counts are `Nat`.
-/

namespace Scraper

/-- ASCII fragment of Python's `\s` class: space, tab, newline, carriage
return, vertical tab, form feed.  Used by the `\s` in the phone
normalization character class and by Python's `str.strip()`. -/
def isSpaceChar (c : Char) : Bool :=
  c = ' ' || c = '\t' || c = '\n' || c = '\r' || c = '\x0b' || c = '\x0c'

/-- ASCII fragment of Python's `\w` class: letters, digits, underscore. -/
def isWordChar (c : Char) : Bool :=
  c.isAlphanum || c = '_'

/-- The character class `[\w\.-]` of the email regex in
`ClinicData._validate_email` (src/scraper.py line 48). -/
def isClassA (c : Char) : Bool :=
  isWordChar c || c = '.' || c = '-'

/-- The character class `[\d\-\s\(\)]` kept by the substitution in
`ClinicData._normalize_phone` (src/scraper.py line 41): digits, hyphen,
whitespace, parentheses.  Every other character is deleted. -/
def keepPhoneChar (c : Char) : Bool :=
  c.isDigit || c = '-' || isSpaceChar c || c = '(' || c = ')'

/-- Python's `str.strip()` on a character list: drop leading and trailing
whitespace. -/
def stripChars (cs : List Char) : List Char :=
  ((cs.dropWhile isSpaceChar).reverse.dropWhile isSpaceChar).reverse

/-- `ClinicData._normalize_phone` (src/scraper.py lines 37-42):
`re.sub(r'[^\d\-\s\(\)]', '', phone).strip()`, with the `"Not found"`
sentinel passed through and an empty cleaning result demoted to
`"Not found"`. -/
def _normalize_phone (phone : String) : String :=
  if phone = "Not found" then phone
  else
    let cleaned := stripChars (phone.data.filter keepPhoneChar)
    if cleaned.isEmpty then "Not found" else String.mk cleaned

/-- The anchored regex `^[\w\.-]+@[\w\.-]+\.\w{2,}$` of
`ClinicData._validate_email` (src/scraper.py line 48), decided from the
end of the string: a run of at least two word characters, preceded by a
literal dot, preceded by a nonempty run of `[\w\.-]` characters,
preceded by `@`, preceded by the nonempty local part of `[\w\.-]`
characters reaching the start of the string.  (The dot anchoring the
final `\w{2,}` run is necessarily the last dot of the domain, since no
dot is a word character.) -/
def emailShape (cs : List Char) : Bool :=
  let rev := cs.reverse
  let t := rev.takeWhile isWordChar
  if t.length < 2 then false
  else
    match rev.drop t.length with
    | '.' :: r2 =>
      let d := r2.takeWhile isClassA
      if d.isEmpty then false
      else
        match r2.drop d.length with
        | '@' :: lrev => !lrev.isEmpty && lrev.all isClassA
        | _ => false
    | _ => false

/-- `re.match(pattern, s)` acceptance for the anchored email pattern:
Python's `$` matches at the very end of the string or just before a
newline that is the string's final character, so a single trailing
newline is tolerated. -/
def pyEmailAccepts (cs : List Char) : Bool :=
  if cs.getLast? = some '\n' then emailShape cs.dropLast else emailShape cs

/-- `ClinicData._validate_email` (src/scraper.py lines 44-52): the
sentinel passes through; a string accepted by the regex is returned
unchanged; anything else is demoted to `"Not found"`. -/
def _validate_email (email : String) : String :=
  if email = "Not found" then email
  else if pyEmailAccepts email.data then email
  else "Not found"

/-- The character set the spec's data model allows in a normalized phone
value: digits, parentheses, hyphens, and (literal) spaces. -/
def specPhoneChar (c : Char) : Bool :=
  c.isDigit || c = '(' || c = ')' || c = '-' || c = ' '

theorem mem_stripChars {c : Char} {l : List Char} (h : c ∈ stripChars l) : c ∈ l := by
  unfold stripChars at h
  rw [List.mem_reverse] at h
  have h1 := (List.dropWhile_sublist isSpaceChar).subset h
  rw [List.mem_reverse] at h1
  exact (List.dropWhile_sublist isSpaceChar).subset h1

theorem emailShape_append_newline (t : List Char) : emailShape (t ++ ['\n']) = false := by
  unfold emailShape
  simp [List.takeWhile, isWordChar, isSpaceChar]

theorem pyEmailAccepts_iff (cs : List Char) :
    pyEmailAccepts cs = true ↔
      (emailShape cs = true ∨ (cs.getLast? = some '\n' ∧ emailShape cs.dropLast = true)) := by
  unfold pyEmailAccepts
  by_cases h : cs.getLast? = some '\n'
  · have hcs : cs.dropLast ++ ['\n'] = cs := List.dropLast_append_getLast? _ h
    rw [if_pos h]
    constructor
    · intro hs; exact Or.inr ⟨h, hs⟩
    · rintro (hs | ⟨-, hs⟩)
      · rw [← hcs, emailShape_append_newline] at hs; exact absurd hs (by simp)
      · exact hs
  · rw [if_neg h]
    constructor
    · intro hs; exact Or.inl hs
    · rintro (hs | ⟨h2, -⟩)
      · exact hs
      · exact absurd h2 h

/-- Claim C2 (amended): `_validate_email` preserves its input exactly when
the input is the `"Not found"` sentinel, matches the strict
`local@domain.tld` shape (final domain label at least two word
characters), or is such a matching string followed by one trailing
newline (Python's `$` anchor matches just before a final newline); every
other input is demoted to `"Not found"`. -/
theorem validate_email_characterization (s : String) :
    _validate_email s =
      (if s = "Not found" ∨ emailShape s.data = true ∨
          (s.data.getLast? = some '\n' ∧ emailShape s.data.dropLast = true)
       then s else "Not found") := by
  unfold _validate_email
  by_cases h0 : s = "Not found"
  · simp [h0]
  · rw [if_neg h0]
    by_cases h1 : pyEmailAccepts s.data = true
    · rw [if_pos h1, if_pos (Or.inr ((pyEmailAccepts_iff s.data).mp h1))]
    · rw [if_neg h1, if_neg]
      rintro (h | h)
      · exact h0 h
      · exact h1 ((pyEmailAccepts_iff s.data).mpr h)

/-- Claim C2 (counterexample): the string `"a@b.com\n"` does not match
the `local@domain.tld` shape (its final character is a newline), yet
`_validate_email` returns it unchanged instead of `"Not found"`, because
Python's `$` matches just before a trailing newline. -/
theorem validate_email_trailing_newline :
    emailShape ("a@b.com\n" : String).data = false ∧
    _validate_email "a@b.com\n" = "a@b.com\n" ∧
    ("a@b.com\n" : String) ≠ "Not found" ∧
    _validate_email "a@b.com\n" ≠ "Not found" :=
  ⟨by decide, by decide, by decide, by decide⟩

/-- Claim C8 (amended): `_normalize_phone` returns `"Not found"` for every
input consisting only of characters deleted by the substitution step; its
result is always either `"Not found"` or a nonempty string of characters
from the kept class (digits, hyphens, parentheses, whitespace), and it
never returns the empty string. -/
theorem normalize_phone_characterization (s : String) :
    ((∀ c ∈ s.data, keepPhoneChar c = false) → _normalize_phone s = "Not found") ∧
    (_normalize_phone s = "Not found" ∨
      ((_normalize_phone s).data ≠ [] ∧
        ∀ c ∈ (_normalize_phone s).data, keepPhoneChar c = true)) ∧
    _normalize_phone s ≠ "" := by
  unfold _normalize_phone
  by_cases h0 : s = "Not found"
  · simp [h0]
  · rw [if_neg h0]
    by_cases h1 : (stripChars (s.data.filter keepPhoneChar)).isEmpty = true
    · simp [h1]
    · rw [if_neg h1]
      refine ⟨?_, Or.inr ⟨?_, ?_⟩, ?_⟩
      · intro hall
        exfalso
        apply h1
        have : s.data.filter keepPhoneChar = [] := by
          rw [List.filter_eq_nil_iff]
          intro c hc
          simp [hall c hc]
        rw [this]
        rfl
      · intro hd
        apply h1
        have : stripChars (s.data.filter keepPhoneChar) = [] := hd
        rw [this]
        rfl
      · intro c hc
        have hc' : c ∈ stripChars (s.data.filter keepPhoneChar) := hc
        exact List.of_mem_filter (mem_stripChars hc')
      · intro he
        apply h1
        have : stripChars (s.data.filter keepPhoneChar) = ("" : String).data :=
          congrArg String.data he
        rw [this]
        rfl

/-- Claim C8 (counterexample): `"12\t34"` is left untouched by
normalization — the tab survives because Python's `\s` is inside the kept
character class — so the normalized value contains a character that is
neither a digit, a parenthesis, a hyphen, nor a space. -/
theorem normalize_phone_keeps_tab :
    _normalize_phone "12\t34" = "12\t34" ∧
    '\t' ∈ ("12\t34" : String).data ∧
    specPhoneChar '\t' = false ∧
    ("12\t34" : String) ≠ "Not found" :=
  ⟨by decide, by decide, by decide, by decide⟩

/-- Witness for the amended claim C8 at the concrete all-noise input
`"+!x"`. -/
theorem normalize_phone_characterization_witness :
    _normalize_phone "+!x" = "Not found" :=
  (normalize_phone_characterization "+!x").1 (by decide)

/-- Outcome of one GET attempt inside `MyFootDrScraper.safe_request`
(src/scraper.py lines 88-101): either `response.raise_for_status()`
passes and the body is returned, or one of the caught exception classes
fires (`Timeout`, `ConnectionError`, `HTTPError` for a non-success
status, or any other `Exception`). -/
inductive FetchOutcome where
  | success (body : String)
  | timeout
  | connError
  | httpError (status : Nat)
  | otherError
deriving DecidableEq

def FetchOutcome.isSuccess : FetchOutcome → Bool
  | .success _ => true
  | _ => false

/-- Observable behaviour of one `safe_request` call: the value returned
to the caller, the number of GET attempts performed, and the list of
`time.sleep` durations executed, in order. -/
structure SRResult where
  result : Option String
  attempts : Nat
  sleeps : List Nat
deriving DecidableEq

/-- The retry loop of `MyFootDrScraper.safe_request` (src/scraper.py
lines 88-107): `for attempt in range(max_retries)`, return on success,
and after a failure `time.sleep(2 ** attempt)` unless this was the final
attempt.  `outcome` gives the result of the attempt with each index, `i`
is the current attempt index, and the `Nat` argument is the number of
attempts remaining. -/
def srGo (outcome : Nat → FetchOutcome) (i : Nat) : Nat → SRResult
  | 0 => ⟨none, 0, []⟩
  | r + 1 =>
    match outcome i with
    | .success b => ⟨some b, 1, []⟩
    | _ =>
      let rest := srGo outcome (i + 1) r
      if r = 0 then ⟨rest.result, rest.attempts + 1, rest.sleeps⟩
      else ⟨rest.result, rest.attempts + 1, 2 ^ i :: rest.sleeps⟩

/-- Python's `x or d` for `x : Optional[int]` restricted to naturals:
both `None` and `0` are falsy and give the default. -/
def pyOrNat : Option Nat → Nat → Nat
  | none, d => d
  | some k, d => if k = 0 then d else k

/-- `MyFootDrScraper.safe_request` (src/scraper.py lines 85-107):
`max_retries = max_retries or self.config.max_retries`, then the retry
loop starting at attempt index 0. -/
def safe_request (cfgMaxRetries : Nat) (outcome : Nat → FetchOutcome)
    (maxRetries : Option Nat) : SRResult :=
  srGo outcome 0 (pyOrNat maxRetries cfgMaxRetries)

theorem srGo_fail_step (o : Nat → FetchOutcome) (i r : Nat)
    (h : (o i).isSuccess = false) :
    srGo o i (r + 1) =
      if r = 0 then
        ⟨(srGo o (i+1) r).result, (srGo o (i+1) r).attempts + 1, (srGo o (i+1) r).sleeps⟩
      else
        ⟨(srGo o (i+1) r).result, (srGo o (i+1) r).attempts + 1,
          2 ^ i :: (srGo o (i+1) r).sleeps⟩ := by
  cases ho : o i <;> simp [ho, FetchOutcome.isSuccess] at h ⊢ <;> simp [srGo, ho]

theorem srGo_success_step (o : Nat → FetchOutcome) (i r : Nat) (b : String)
    (h : o i = .success b) :
    srGo o i (r + 1) = ⟨some b, 1, []⟩ := by
  simp [srGo, h]

theorem srGo_attempts_le (o : Nat → FetchOutcome) :
    ∀ (r i : Nat), (srGo o i r).attempts ≤ r := by
  intro r
  induction r with
  | zero => intro i; simp [srGo]
  | succ r ih =>
    intro i
    by_cases ho : (o i).isSuccess = true
    · cases hc : o i <;> simp [hc, FetchOutcome.isSuccess] at ho ⊢ <;> simp [srGo, hc]
    · rw [srGo_fail_step o i r (by simpa using ho)]
      by_cases hr : r = 0
      · subst hr; simp [srGo]
      · rw [if_neg hr]
        exact Nat.succ_le_succ (ih (i + 1))

theorem srGo_attempts_pos (o : Nat → FetchOutcome) (r i : Nat) (hr : 0 < r) :
    1 ≤ (srGo o i r).attempts := by
  obtain ⟨r', rfl⟩ : ∃ r', r = r' + 1 := ⟨r - 1, by omega⟩
  by_cases ho : (o i).isSuccess = true
  · cases hc : o i <;> simp [hc, FetchOutcome.isSuccess] at ho ⊢ <;> simp [srGo, hc]
  · rw [srGo_fail_step o i r' (by simpa using ho)]
    by_cases hr' : r' = 0 <;> simp [hr']

theorem srGo_allfail (o : Nat → FetchOutcome) :
    ∀ (r i : Nat), (∀ j, i ≤ j → j < i + r → (o j).isSuccess = false) →
      srGo o i r = ⟨none, r, (List.range' i (r - 1)).map (2 ^ ·)⟩ := by
  intro r
  induction r with
  | zero => intro i _; simp [srGo]
  | succ r ih =>
    intro i h
    rw [srGo_fail_step o i r (h i (Nat.le_refl i) (by omega))]
    by_cases hr : r = 0
    · subst hr; simp [srGo]
    · rw [if_neg hr]
      rw [ih (i + 1) (fun j h1 h2 => h j (by omega) (by omega))]
      obtain ⟨r', rfl⟩ : ∃ r', r = r' + 1 := ⟨r - 1, by omega⟩
      simp [List.range'_succ]

theorem srGo_first_success (o : Nat → FetchOutcome) :
    ∀ (k r i : Nat) (b : String), k < r → o (i + k) = .success b →
      (∀ j, i ≤ j → j < i + k → (o j).isSuccess = false) →
      srGo o i r = ⟨some b, k + 1, (List.range' i k).map (2 ^ ·)⟩ := by
  intro k
  induction k with
  | zero =>
    intro r i b hk hb _
    obtain ⟨r', rfl⟩ : ∃ r', r = r' + 1 := ⟨r - 1, by omega⟩
    rw [srGo_success_step o i r' b (by simpa using hb)]
    simp
  | succ k ih =>
    intro r i b hk hb h
    obtain ⟨r', rfl⟩ : ∃ r', r = r' + 1 := ⟨r - 1, by omega⟩
    rw [srGo_fail_step o i r' (h i (Nat.le_refl i) (by omega))]
    have hr' : r' ≠ 0 := by omega
    rw [if_neg hr']
    rw [ih r' (i + 1) b (by omega) (by rw [← hb]; ring_nf)
      (fun j h1 h2 => h j (by omega) (by omega))]
    simp [List.range'_succ]

theorem srGo_congr (o o' : Nat → FetchOutcome)
    (h : ∀ j, o j = o' j ∨ ((o j).isSuccess = false ∧ (o' j).isSuccess = false)) :
    ∀ (r i : Nat), srGo o i r = srGo o' i r := by
  intro r
  induction r with
  | zero => intro i; rfl
  | succ r ih =>
    intro i
    rcases h i with he | ⟨h1, h2⟩
    · by_cases hs : (o i).isSuccess = true
      · obtain ⟨b, hb⟩ : ∃ b, o i = .success b := by
          cases hc : o i <;> simp [hc, FetchOutcome.isSuccess] at hs ⊢
        rw [srGo_success_step o i r b hb, srGo_success_step o' i r b (he ▸ hb)]
      · have h1 : (o i).isSuccess = false := by simpa using hs
        rw [srGo_fail_step o i r h1, srGo_fail_step o' i r (he ▸ h1), ih (i + 1)]
    · rw [srGo_fail_step o i r h1, srGo_fail_step o' i r h2, ih (i + 1)]

/-- Claim C3: with an explicit positive retry limit `n`, `safe_request`
performs at most `n` GET attempts; if every attempt fails it performs
exactly `n` attempts, sleeps `2 ^ i` after failed attempt `i` for every
attempt except the final one, and returns `none` to the caller; if
attempt `k` is the first success it returns the body after `k + 1`
attempts having slept `2 ^ i` for each prior failure; and the behaviour
depends only on which attempts succeed with which bodies — the kind of
failure (timeout, connection error, non-success HTTP status, other) is
irrelevant. -/
theorem safe_request_retry_contract (cfg : Nat) (o : Nat → FetchOutcome) (n : Nat)
    (hn : 0 < n) :
    (safe_request cfg o (some n)).attempts ≤ n ∧
    ((∀ j, j < n → (o j).isSuccess = false) →
      (safe_request cfg o (some n)).result = none ∧
      (safe_request cfg o (some n)).attempts = n ∧
      (safe_request cfg o (some n)).sleeps = (List.range (n - 1)).map (2 ^ ·)) ∧
    (∀ k b, k < n → o k = .success b → (∀ j, j < k → (o j).isSuccess = false) →
      (safe_request cfg o (some n)).result = some b ∧
      (safe_request cfg o (some n)).attempts = k + 1 ∧
      (safe_request cfg o (some n)).sleeps = (List.range k).map (2 ^ ·)) ∧
    (∀ o', (∀ j, o j = o' j ∨ ((o j).isSuccess = false ∧ (o' j).isSuccess = false)) →
      safe_request cfg o (some n) = safe_request cfg o' (some n)) := by
  have hpy : pyOrNat (some n) cfg = n := by
    simp [pyOrNat, Nat.pos_iff_ne_zero.mp hn]
  unfold safe_request
  rw [hpy]
  refine ⟨srGo_attempts_le o n 0, ?_, ?_, ?_⟩
  · intro hall
    rw [srGo_allfail o n 0 (fun j _ h2 => hall j (by omega))]
    simp [List.range_eq_range']
  · intro k b hk hb hbefore
    rw [srGo_first_success o k n 0 b hk (by simpa using hb)
      (fun j _ h2 => hbefore j (by omega))]
    simp [List.range_eq_range']
  · intro o' ho'
    exact srGo_congr o o' ho' n 0

/-- Witness for claim C3 with limit 2 and every attempt timing out: two
attempts, one sleep of `2 ^ 0 = 1`, no result. -/
theorem safe_request_retry_contract_witness :
    (safe_request 5 (fun _ => FetchOutcome.timeout) (some 2)).result = none ∧
    (safe_request 5 (fun _ => FetchOutcome.timeout) (some 2)).attempts = 2 ∧
    (safe_request 5 (fun _ => FetchOutcome.timeout) (some 2)).sleeps = [1] := by
  have h := safe_request_retry_contract 5 (fun _ => FetchOutcome.timeout) 2 (by decide)
  have h2 := h.2.1 (fun j _ => rfl)
  exact ⟨h2.1, h2.2.1, by rw [h2.2.2]; decide⟩

/-- Claim C9: an explicit retry limit of 0 is falsy in Python, so
`max_retries or self.config.max_retries` replaces it by the configured
default; calling `safe_request` with `some 0` behaves exactly like
omitting the limit, and at least one GET attempt is made whenever the
configured default is positive. -/
theorem safe_request_falsy_zero_limit (cfg : Nat) (o : Nat → FetchOutcome)
    (hcfg : 0 < cfg) :
    safe_request cfg o (some 0) = safe_request cfg o none ∧
    1 ≤ (safe_request cfg o (some 0)).attempts := by
  constructor
  · rfl
  · unfold safe_request
    exact srGo_attempts_pos o _ 0 (by simpa [pyOrNat] using hcfg)

/-- Witness for claim C9 at configured default 3. -/
theorem safe_request_falsy_zero_limit_witness :
    safe_request 3 (fun _ => FetchOutcome.timeout) (some 0) =
      safe_request 3 (fun _ => FetchOutcome.timeout) none ∧
    1 ≤ (safe_request 3 (fun _ => FetchOutcome.timeout) (some 0)).attempts :=
  safe_request_falsy_zero_limit 3 (fun _ => FetchOutcome.timeout) (by decide)

end Scraper

namespace Scraper

structure Link where
  href : String
  text : String
deriving DecidableEq

structure Region where
  name : String
  url : String
deriving DecidableEq

def regionSelectors : List String :=
  [".region-list a[href*=\"/regions/\"]",
   ".clinic-regions a[href*=\"/regions/\"]",
   "[class*=\"region\"] a[href*=\"/regions/\"]",
   "a[href*=\"/regions/\"]"]

def pyTitleGo : Bool → List Char → List Char
  | _, [] => []
  | prevAlpha, c :: cs =>
    if c.isAlpha then
      (if prevAlpha then c.toLower else c.toUpper) :: pyTitleGo true cs
    else c :: pyTitleGo false cs

def pyTitle (s : String) : String := String.mk (pyTitleGo false s.data)

def regionName (l : Link) : String :=
  if l.text = "" then
    pyTitle (((l.href.splitOn "/").getLastD "").replace "-" " ")
  else l.text

def addRegionLinks (resolve : String → String) :
    List Link → List Region → List String → List Region × List String
  | [], acc, seen => (acc, seen)
  | l :: ls, acc, seen =>
    let u := resolve l.href
    if u ∈ seen then addRegionLinks resolve ls acc seen
    else addRegionLinks resolve ls (acc ++ [⟨regionName l, u⟩]) (u :: seen)

def regionsGo (resolve : String → String) (page : String → List Link) :
    List String → List Region → List String → List Region
  | [], acc, _ => acc
  | sel :: rest, acc, seen =>
    let p := addRegionLinks resolve (page sel) acc seen
    if p.1.isEmpty then regionsGo resolve page rest p.1 p.2 else p.1

def extract_regions (resolve : String → String)
    (fetched : Option (String → List Link)) : List Region :=
  match fetched with
  | none => []
  | some page => regionsGo resolve page regionSelectors [] []

def regionsOfLinks (resolve : String → String) : List Link → List String → List Region
  | [], _ => []
  | l :: ls, seen =>
    let u := resolve l.href
    if u ∈ seen then regionsOfLinks resolve ls seen
    else ⟨regionName l, u⟩ :: regionsOfLinks resolve ls (u :: seen)

def regionsSpec (resolve : String → String)
    (fetched : Option (String → List Link)) : List Region :=
  match fetched with
  | none => []
  | some page =>
    match regionSelectors.find? (fun sel => !(page sel).isEmpty) with
    | none => []
    | some sel => regionsOfLinks resolve (page sel) []

theorem addRegionLinks_fst (resolve : String → String) :
    ∀ (ls : List Link) (acc : List Region) (seen : List String),
      (addRegionLinks resolve ls acc seen).1 = acc ++ regionsOfLinks resolve ls seen := by
  intro ls
  induction ls with
  | nil => intro acc seen; simp [addRegionLinks, regionsOfLinks]
  | cons l ls ih =>
    intro acc seen
    unfold addRegionLinks regionsOfLinks
    by_cases h : resolve l.href ∈ seen
    · simp only [if_pos h]
      exact ih acc seen
    · simp only [if_neg h]
      rw [ih]
      simp

theorem regionsGo_spec (resolve : String → String) (page : String → List Link) :
    ∀ sels : List String,
      regionsGo resolve page sels [] [] =
        (match sels.find? (fun sel => !(page sel).isEmpty) with
         | none => []
         | some sel => regionsOfLinks resolve (page sel) []) := by
  intro sels
  induction sels with
  | nil => rfl
  | cons sel rest ih =>
    cases h : page sel with
    | nil =>
      unfold regionsGo
      rw [h]
      simp only [addRegionLinks]
      rw [List.find?_cons_of_neg _ (by simp [h])]
      exact ih
    | cons l ls =>
      unfold regionsGo
      rw [h]
      have h1 : (addRegionLinks resolve (l :: ls) [] []).1 =
          regionsOfLinks resolve (l :: ls) [] := by
        rw [addRegionLinks_fst]; rfl
      have h2 : regionsOfLinks resolve (l :: ls) [] ≠ [] := by
        unfold regionsOfLinks
        simp
      rw [List.find?_cons_of_pos _ (by simp [h])]
      simp only [h1]
      rw [if_neg (by simpa [List.isEmpty_iff] using h2), ← h]

theorem regionsOfLinks_nodup (resolve : String → String) :
    ∀ (ls : List Link) (seen : List String),
      ((regionsOfLinks resolve ls seen).map Region.url).Nodup ∧
      ∀ r ∈ regionsOfLinks resolve ls seen, r.url ∉ seen := by
  intro ls
  induction ls with
  | nil => intro seen; simp [regionsOfLinks]
  | cons l ls ih =>
    intro seen
    unfold regionsOfLinks
    by_cases h : resolve l.href ∈ seen
    · simp only [if_pos h]
      exact ih seen
    · simp only [if_neg h]
      obtain ⟨ihn, ihm⟩ := ih (resolve l.href :: seen)
      constructor
      · simp only [List.map_cons, List.nodup_cons]
        refine ⟨?_, ihn⟩
        intro hmem
        obtain ⟨r, hr, hru⟩ := List.mem_map.mp hmem
        exact ihm r hr (hru ▸ List.mem_cons_self _ _)
      · intro r hr
        rcases List.mem_cons.mp hr with rfl | hr'
        · exact h
        · intro hseen
          exact ihm r hr' (List.mem_cons_of_mem _ hseen)

/-- Claim C4: `extract_regions` equals the spec-side description —
apply the four selector strategies in their documented priority order and
stop at the first yielding at least one match; within the winning
strategy deduplicate by resolved absolute URL, first occurrence winning,
insertion order preserved, naming each region by its link text or, when
that is empty, by the title-cased, hyphen-to-space last path segment of
the href; return the empty list when the listing page cannot be fetched
or no strategy matches.  The produced URLs are pairwise distinct. -/
theorem extract_regions_contract (resolve : String → String) (fetched : Option (String → List Link)) :
    extract_regions resolve fetched = regionsSpec resolve fetched ∧
    ((extract_regions resolve fetched).map Region.url).Nodup := by
  constructor
  · cases fetched with
    | none => rfl
    | some page =>
      unfold extract_regions regionsSpec
      exact regionsGo_spec resolve page regionSelectors
  · cases fetched with
    | none => simp [extract_regions]
    | some page =>
      show ((regionsGo resolve page regionSelectors [] []).map Region.url).Nodup
      rw [regionsGo_spec resolve page regionSelectors]
      cases h : regionSelectors.find? (fun sel => !(page sel).isEmpty) with
      | none => simp
      | some sel => exact (regionsOfLinks_nodup resolve (page sel) []).1

end Scraper

namespace Scraper

def serviceSelectors : List String :=
  [".clinic-2020-services .featured-posts article",
   ".services article", ".services-list li",
   "[class*=\"service\"] article", "[class*=\"service\"] li"]

def addServiceArts : List (Option String) → List String → List String
  | [], acc => acc
  | none :: arts, acc => addServiceArts arts acc
  | some n :: arts, acc =>
    if n ≠ "" ∧ n ∉ acc then addServiceArts arts (acc ++ [n])
    else addServiceArts arts acc

def svcGo (page : String → List (Option String)) :
    List String → List String → List String
  | [], acc => acc
  | sel :: rest, acc =>
    let acc' := addServiceArts (page sel) acc
    if acc'.isEmpty then svcGo page rest acc' else acc'

def _extract_services (page : String → List (Option String)) : String :=
  let s := svcGo page serviceSelectors []
  if s.isEmpty then "Not found" else String.intercalate "; " s

def uniqueNames : List (Option String) → List String → List String
  | [], _ => []
  | none :: arts, seen => uniqueNames arts seen
  | some n :: arts, seen =>
    if n ≠ "" ∧ n ∉ seen then n :: uniqueNames arts (n :: seen)
    else uniqueNames arts seen

def servicesSpec (page : String → List (Option String)) : String :=
  match serviceSelectors.find? (fun sel => !(uniqueNames (page sel) []).isEmpty) with
  | none => "Not found"
  | some sel => String.intercalate "; " (uniqueNames (page sel) [])

theorem uniqueNames_congr :
    ∀ (arts : List (Option String)) (s1 s2 : List String),
      (∀ x : String, x ∈ s1 ↔ x ∈ s2) → uniqueNames arts s1 = uniqueNames arts s2 := by
  intro arts
  induction arts with
  | nil => intro s1 s2 _; rfl
  | cons a arts ih =>
    intro s1 s2 h
    cases a with
    | none => exact ih s1 s2 h
    | some n =>
      unfold uniqueNames
      by_cases hn : n ≠ "" ∧ n ∉ s1
      · rw [if_pos hn, if_pos ⟨hn.1, fun hm => hn.2 ((h n).mpr hm)⟩]
        rw [ih (n :: s1) (n :: s2) (by intro x; simp [h x])]
      · rw [if_neg hn, if_neg (by
          intro hc
          exact hn ⟨hc.1, fun hm => hc.2 ((h n).mp hm)⟩)]
        exact ih s1 s2 h

theorem addServiceArts_eq :
    ∀ (arts : List (Option String)) (acc : List String),
      addServiceArts arts acc = acc ++ uniqueNames arts acc := by
  intro arts
  induction arts with
  | nil => intro acc; simp [addServiceArts, uniqueNames]
  | cons a arts ih =>
    intro acc
    cases a with
    | none => simp only [addServiceArts, uniqueNames]; exact ih acc
    | some n =>
      unfold addServiceArts uniqueNames
      by_cases hn : n ≠ "" ∧ n ∉ acc
      · rw [if_pos hn, if_pos hn, ih (acc ++ [n])]
        rw [uniqueNames_congr arts (acc ++ [n]) (n :: acc)
          (by intro x; simp [or_comm])]
        simp
      · rw [if_neg hn, if_neg hn]
        exact ih acc

theorem svcGo_spec (page : String → List (Option String)) :
    ∀ sels : List String,
      svcGo page sels [] =
        (match sels.find? (fun sel => !(uniqueNames (page sel) []).isEmpty) with
         | none => []
         | some sel => uniqueNames (page sel) []) := by
  intro sels
  induction sels with
  | nil => rfl
  | cons sel rest ih =>
    unfold svcGo
    have h1 : addServiceArts (page sel) [] = uniqueNames (page sel) [] := by
      rw [addServiceArts_eq]; rfl
    by_cases h : (uniqueNames (page sel) []).isEmpty = true
    · rw [List.find?_cons_of_neg _ (by simp [h])]
      simp only [h1]
      rw [if_pos h, List.isEmpty_iff.mp h]
      exact ih
    · rw [List.find?_cons_of_pos _ (by simp [Bool.not_eq_true] at h ⊢; exact h)]
      simp only [h1]
      rw [if_neg h]

/-- Claim C5: `_extract_services` equals the spec-side description —
stop at the first selector strategy yielding at least one service name,
collect unique nonempty heading texts in first-seen order, join them
with `"; "`, and yield `"Not found"` when nothing is found; in
particular the heading sequence Orthotics, Nail Care, Orthotics gives
`"Orthotics; Nail Care"`. -/
theorem extract_services_contract (page : String → List (Option String)) :
    _extract_services page = servicesSpec page ∧
    _extract_services (fun sel =>
        if sel = ".clinic-2020-services .featured-posts article" then
          [some "Orthotics", some "Nail Care", some "Orthotics"]
        else []) = "Orthotics; Nail Care" := by
  constructor
  · unfold _extract_services servicesSpec
    rw [svcGo_spec page serviceSelectors]
    cases h : serviceSelectors.find? (fun sel => !(uniqueNames (page sel) []).isEmpty) with
    | none => simp
    | some sel =>
      have hp := List.find?_some h
      rw [if_neg (by simpa using hp)]
  · decide

end Scraper

namespace Scraper

/-- The raw field values a clinic page yields to the five field
extractors (`_extract_name`, `_extract_address`, `_extract_phone`,
`_extract_email`, `_extract_services`, src/scraper.py lines 206-299);
the pipeline claims do not depend on how each extractor walks the HTML,
only on the values flowing into the `ClinicData` constructor. -/
structure ClinicPageData where
  name : String
  address : String
  phone : String
  email : String
  services : String
deriving DecidableEq

/-- `ClinicData` (src/scraper.py lines 26-35): the record built per
clinic; the constructor normalizes the phone and validates the email. -/
structure ClinicData where
  name : String
  address : String
  phone : String
  email : String
  services : String
  url : String
  region : String
deriving DecidableEq

/-- The `ClinicData.__init__` call made by `extract_clinic_details`
(src/scraper.py lines 28-35 and 193-200): region starts empty and is
stamped later by the orchestrator. -/
def mkClinicData (pd : ClinicPageData) (url : String) : ClinicData :=
  { name := pd.name, address := pd.address, phone := _normalize_phone pd.phone,
    email := _validate_email pd.email, services := pd.services, url := url, region := "" }

/-- A clinic link dict `{'name', 'url'}` produced by
`extract_clinics_from_region`. -/
structure Clinic where
  name : String
  url : String
deriving DecidableEq

/-- The external collaborators of one run: `resolve` is
`urljoin(base_url, ·)`; `listing` is the fetched `/our-clinics/` page
(`none` = fetch failed after retries); `regionPage` and `clinicPage`
give each URL's fetch result; `extractOk url = false` models an
unexpected exception raised during field extraction of that clinic page
(the `except` at src/scraper.py lines 202-204); `writerowOk i = false`
models an exception raised by the i-th `writer.writerow` call. -/
structure World where
  resolve : String → String
  listing : Option (String → List Link)
  regionPage : String → Option (String → List Link)
  clinicPage : String → Option ClinicPageData
  extractOk : String → Bool
  writerowOk : Nat → Bool

/-- Whether the first list is a leading segment of the second
(structural helper for Python's substring test). -/
def leadMatch : List Char → List Char → Bool
  | [], _ => true
  | _ :: _, [] => false
  | p :: ps, c :: cs => (p = c) && leadMatch ps cs

/-- Whether the pattern occurs as a contiguous run anywhere in the
string. -/
def containsChars : List Char → List Char → Bool
  | [], pat => pat.isEmpty
  | c :: cs, pat => leadMatch pat (c :: cs) || containsChars cs pat

/-- Python's `pat in s` substring test. -/
def containsSub (s pat : String) : Bool := containsChars s.data pat.data

/-- The selector fallback chain of `extract_clinics_from_region`
(src/scraper.py lines 156-159). -/
def clinicSelectors : List String :=
  [".clinic-list a", ".clinic-item a", ".clinic-name a",
   "h3 a", "article a", ".entry-title a", "a[href*=\"/our-clinics/\"]"]

/-- The inner link loop of `extract_clinics_from_region`
(src/scraper.py lines 164-171): keep a link iff its href contains
`/our-clinics/`, does not contain `/regions/`, its text is nonempty and
not a generic label, and its resolved URL is not already in the
visited-URL set. -/
def addClinicLinks (resolve : String → String) (seen : List String) :
    List Link → List Clinic → List Clinic
  | [], acc => acc
  | l :: ls, acc =>
    let full := resolve l.href
    if containsSub l.href "/our-clinics/" && !containsSub l.href "/regions/" &&
        l.text != "" && !(l.text == "Our Clinics" || l.text == "Clinics" || l.text == "") &&
        !seen.contains full then
      addClinicLinks resolve seen ls (acc ++ [⟨l.text, full⟩])
    else addClinicLinks resolve seen ls acc

/-- The selector loop of `extract_clinics_from_region` (src/scraper.py
lines 161-174): process strategies in order, stop as soon as the
accumulated clinic list is nonempty. -/
def clinicsGo (resolve : String → String) (page : String → List Link) (seen : List String) :
    List String → List Clinic → List Clinic
  | [], acc => acc
  | sel :: rest, acc =>
    let acc' := addClinicLinks resolve seen (page sel) acc
    if acc'.isEmpty then clinicsGo resolve page seen rest acc' else acc'

/-- `MyFootDrScraper.extract_clinics_from_region` (src/scraper.py lines
146-177): empty on fetch failure, else the selector fallback chain. -/
def extract_clinics_from_region (w : World) (seen : List String) (regionUrl : String) :
    List Clinic :=
  match w.regionPage regionUrl with
  | none => []
  | some page => clinicsGo w.resolve page seen clinicSelectors []

/-- `MyFootDrScraper.extract_clinic_details` (src/scraper.py lines
179-204), with the visited-URL set passed and returned explicitly:
skip if already seen; on fetch failure return `none` with the set
unchanged; otherwise add the URL to the set and, if field extraction
raises, return `none` anyway (the set mutation is not rolled back). -/
def extract_clinic_details (w : World) (seen : List String) (url : String) :
    Option ClinicData × List String :=
  if url ∈ seen then (none, seen)
  else
    match w.clinicPage url with
    | none => (none, seen)
    | some pd =>
      if w.extractOk url then (some (mkClinicData pd url), url :: seen)
      else (none, url :: seen)

/-- The `fieldnames` list of `scrape_all_clinics` (src/scraper.py line
313), also the header row written by `writer.writeheader()`. -/
def fieldnames : List String :=
  ["Region", "Clinic_Name", "Address", "Phone", "Email", "Services"]

/-- The CSV row written for a record: `to_dict` (src/scraper.py lines
54-62) read off in `fieldnames` order by `csv.DictWriter`. -/
def rowOf (d : ClinicData) : List String :=
  [d.region, d.name, d.address, d.phone, d.email, d.services]

/-- The mutable state threaded through the orchestrator loops: the
visited-URL set, the records written so far, the file contents (header
and rows, in write order), the running count, the index of the next data
row, and whether an exception has been raised inside the `try` body
(after which no further iterations run and the exception propagates
past the `finally`). -/
structure RunState where
  seen : List String
  records : List ClinicData
  file : List (List String)
  count : Nat
  rowIdx : Nat
  failed : Bool

/-- The per-clinic body of `scrape_all_clinics` (src/scraper.py lines
326-338): extract details; on success stamp the region name, write the
row and count it; on `None` log and continue.  A failing `writerow`
marks the run failed (its row is not written). -/
def processClinic (w : World) (rname : String) (st : RunState) (c : Clinic) : RunState :=
  if st.failed then st
  else
    match extract_clinic_details w st.seen c.url with
    | (some d, seen') =>
      let d' := { d with region := rname }
      if w.writerowOk st.rowIdx then
        { st with
          seen := seen'
          records := st.records ++ [d']
          file := st.file ++ [rowOf d']
          count := st.count + 1
          rowIdx := st.rowIdx + 1 }
      else { st with seen := seen', failed := true }
    | (none, seen') => { st with seen := seen' }

/-- The per-region body of `scrape_all_clinics` (src/scraper.py lines
320-338): discover this region's clinic links once, then process them in
order. -/
def processRegion (w : World) (st : RunState) (r : Region) : RunState :=
  if st.failed then st
  else
    let clinics := extract_clinics_from_region w st.seen r.url
    clinics.foldl (processClinic w r.name) st

/-- Observable outcome of one `scrape_all_clinics` call: whether the
output file was opened and whether it was closed, the file contents, the
records written, the returned count, and whether an exception escaped
the `try` body (propagating after the `finally` closed the file). -/
structure RunResult where
  opened : Bool
  closed : Bool
  file : List (List String)
  records : List ClinicData
  count : Nat
  failed : Bool

/-- `MyFootDrScraper.scrape_all_clinics` (src/scraper.py lines
301-344): discover regions; if none, return 0 without ever opening the
output file; otherwise open the file, write the header row, run the
region loop inside `try`, and close the file in `finally` on both the
normal and the exception path. -/
def scrape_all_clinics (w : World) : RunResult :=
  let regions := extract_regions w.resolve w.listing
  if regions.isEmpty then
    { opened := false
      closed := false
      file := []
      records := []
      count := 0
      failed := false }
  else
    let st0 : RunState :=
      { seen := []
        records := []
        file := [fieldnames]
        count := 0
        rowIdx := 0
        failed := false }
    let st := regions.foldl (processRegion w) st0
    { opened := true
      closed := true
      file := st.file
      records := st.records
      count := st.count
      failed := st.failed }

end Scraper

namespace Scraper

/-- Loop invariant: the written records carry pairwise-distinct URLs,
each present in the visited-URL set. -/
def SeenInv (st : RunState) : Prop :=
  ((st.records.map (fun d => d.url)).Nodup) ∧ ∀ d ∈ st.records, d.url ∈ st.seen

theorem extract_details_cases (w : World) (seen : List String) (url : String) :
    seen ⊆ (extract_clinic_details w seen url).2 ∧
    (∀ d, (extract_clinic_details w seen url).1 = some d →
      d.url = url ∧ url ∉ seen ∧ (extract_clinic_details w seen url).2 = url :: seen) := by
  unfold extract_clinic_details
  by_cases h : url ∈ seen
  · simp [h]
  · rw [if_neg h]
    cases hp : w.clinicPage url with
    | none => simp
    | some pd =>
      by_cases he : w.extractOk url = true
      · simp only [he, if_true]
        constructor
        · exact List.subset_cons_self _ _
        · rintro d hd
          simp only [Option.some_inj] at hd
          subst hd
          exact ⟨rfl, h, trivial⟩
      · simp only [Bool.not_eq_true] at he
        simp [he, List.subset_cons_self]

theorem processClinic_step (w : World) (rname : String) (st : RunState) (c : Clinic)
    (h : SeenInv st) :
    SeenInv (processClinic w rname st c) ∧
    st.seen ⊆ (processClinic w rname st c).seen ∧
    (∃ e, (processClinic w rname st c).file = st.file ++ e) := by
  unfold processClinic
  by_cases hf : st.failed = true
  · simp only [hf, if_pos]
    exact ⟨h, by simp, [], by simp⟩
  · simp only [Bool.not_eq_true] at hf
    simp only [hf, Bool.false_eq_true, if_false]
    obtain ⟨hsub, hsome⟩ := extract_details_cases w st.seen c.url
    rcases hE : extract_clinic_details w st.seen c.url with ⟨res, seen₂⟩
    rw [hE] at hsub hsome
    cases res with
    | none =>
      simp only []
      refine ⟨⟨h.1, fun d hd => hsub (h.2 d hd)⟩, hsub, [], by simp⟩
    | some d =>
      obtain ⟨hdu, hnot, hseen0⟩ := hsome d rfl
      have hseen : seen₂ = c.url :: st.seen := hseen0
      have hsub2 : st.seen ⊆ seen₂ := hsub
      by_cases hw : w.writerowOk st.rowIdx = true
      · simp only [hw, if_pos]
        refine ⟨⟨?_, ?_⟩, ?_, ?_⟩
        · simp only [List.map_append, List.map_cons, List.map_nil]
          rw [List.nodup_append]
          refine ⟨h.1, List.nodup_singleton _, ?_⟩
          intro u hu hu1
          simp only [List.mem_singleton] at hu1
          obtain ⟨r, hr, hru⟩ := List.mem_map.mp hu
          apply hnot
          have : r.url = c.url := by rw [hru, hu1, hdu]
          exact this ▸ h.2 r hr
        · intro d2 hd2
          rw [hseen]
          rcases List.mem_append.mp hd2 with hold | hnew
          · exact List.mem_cons_of_mem _ (h.2 d2 hold)
          · simp only [List.mem_singleton] at hnew
            subst hnew
            simp [hdu]
        · rw [hseen]; exact List.subset_cons_self _ _
        · exact ⟨[rowOf { d with region := rname }], rfl⟩
      · simp only [Bool.not_eq_true] at hw
        simp only [hw, Bool.false_eq_true, if_false]
        refine ⟨⟨h.1, ?_⟩, ?_, [], by simp⟩
        · intro d2 hd2
          rw [hseen]
          exact List.mem_cons_of_mem _ (h.2 d2 hd2)
        · rw [hseen]; exact List.subset_cons_self _ _

theorem foldClinics_step (w : World) (rname : String) :
    ∀ (cs : List Clinic) (st : RunState), SeenInv st →
      SeenInv (cs.foldl (processClinic w rname) st) ∧
      st.seen ⊆ (cs.foldl (processClinic w rname) st).seen ∧
      (∃ e, (cs.foldl (processClinic w rname) st).file = st.file ++ e) := by
  intro cs
  induction cs with
  | nil => intro st h; exact ⟨h, by simp, [], by simp⟩
  | cons c cs ih =>
    intro st h
    obtain ⟨h1, h2, e1, h3⟩ := processClinic_step w rname st c h
    obtain ⟨g1, g2, e2, g3⟩ := ih (processClinic w rname st c) h1
    exact ⟨g1, fun x hx => g2 (h2 hx), e1 ++ e2, by
      rw [List.foldl_cons, g3, h3, List.append_assoc]⟩

theorem processRegion_step (w : World) (st : RunState) (r : Region) (h : SeenInv st) :
    SeenInv (processRegion w st r) ∧
    st.seen ⊆ (processRegion w st r).seen ∧
    (∃ e, (processRegion w st r).file = st.file ++ e) := by
  unfold processRegion
  by_cases hf : st.failed = true
  · simp only [hf, if_pos]
    exact ⟨h, by simp, [], by simp⟩
  · simp only [Bool.not_eq_true] at hf
    simp only [hf, Bool.false_eq_true, if_false]
    exact foldClinics_step w r.name _ st h

theorem foldRegions_step (w : World) :
    ∀ (rs : List Region) (st : RunState), SeenInv st →
      SeenInv (rs.foldl (processRegion w) st) ∧
      (∃ e, (rs.foldl (processRegion w) st).file = st.file ++ e) := by
  intro rs
  induction rs with
  | nil => intro st h; exact ⟨h, [], by simp⟩
  | cons r rs ih =>
    intro st h
    obtain ⟨h1, _, e1, h3⟩ := processRegion_step w st r h
    obtain ⟨g1, e2, g3⟩ := ih (processRegion w st r) h1
    exact ⟨g1, e1 ++ e2, by rw [List.foldl_cons, g3, h3, List.append_assoc]⟩

end Scraper

namespace Scraper

/-- Claim C1: in any single run no two written records share a source
clinic URL; moreover a clinic URL not yet visited whose fetch and field
extraction succeed yields its record and enters the visited set, and
every later encounter of a visited URL returns Skipped (`none`) with the
set unchanged, so exactly one record is ever produced per URL. -/
theorem scrape_unique_clinic_urls (w : World) :
    (((scrape_all_clinics w).records.map (fun d => d.url)).Nodup) ∧
    (∀ (seen : List String) (url : String) (pd : ClinicPageData),
      url ∉ seen → w.clinicPage url = some pd → w.extractOk url = true →
      extract_clinic_details w seen url = (some (mkClinicData pd url), url :: seen)) ∧
    (∀ (seen : List String) (url : String), url ∈ seen →
      extract_clinic_details w seen url = (none, seen)) := by
  refine ⟨?_, ?_, ?_⟩
  · unfold scrape_all_clinics
    by_cases h : (extract_regions w.resolve w.listing).isEmpty = true
    · simp [h]
    · simp only [h, Bool.false_eq_true, if_false]
      have hInv : SeenInv
          { seen := []
            records := []
            file := [fieldnames]
            count := 0
            rowIdx := 0
            failed := false } := ⟨List.nodup_nil, by simp⟩
      exact (foldRegions_step w (extract_regions w.resolve w.listing) _ hInv).1.1
  · intro seen url pd hn hp he
    unfold extract_clinic_details
    rw [if_neg hn, hp]
    simp [he]
  · intro seen url hm
    unfold extract_clinic_details
    rw [if_pos hm]

/-- A concrete clinic page used by the witness worlds. -/
def pdAlpha : ClinicPageData :=
  { name := "Alpha Clinic", address := "1 Main St", phone := "(07) 1234 5678",
    email := "a@b.com", services := "Orthotics" }

/-- Witness world: the same clinic URL is listed in two different
regions' discovery results. -/
def wShared : World :=
  { resolve := id
    listing := some (fun _ => [⟨"/regions/north", "North"⟩, ⟨"/regions/south", "South"⟩])
    regionPage := fun _ => some (fun _ => [⟨"/our-clinics/alpha", "Alpha Clinic"⟩])
    clinicPage := fun _ => some pdAlpha
    extractOk := fun _ => true
    writerowOk := fun _ => true }

/-- Witness for claim C1: first encounter of the shared URL yields the
record, the second encounter is skipped. -/
theorem scrape_unique_clinic_urls_witness :
    extract_clinic_details wShared [] "/our-clinics/alpha" =
      (some (mkClinicData pdAlpha "/our-clinics/alpha"), ["/our-clinics/alpha"]) ∧
    extract_clinic_details wShared ["/our-clinics/alpha"] "/our-clinics/alpha" =
      (none, ["/our-clinics/alpha"]) := by
  have h := scrape_unique_clinic_urls wShared
  exact ⟨h.2.1 [] "/our-clinics/alpha" pdAlpha (by decide) rfl rfl,
    h.2.2 ["/our-clinics/alpha"] "/our-clinics/alpha" (by decide)⟩

/-- Witness world whose listing page fails to fetch: no regions are
discovered. -/
def wNoRegions : World :=
  { resolve := id
    listing := none
    regionPage := fun _ => none
    clinicPage := fun _ => none
    extractOk := fun _ => true
    writerowOk := fun _ => true }

/-- Claim C6 (counterexample): in a run discovering no regions the
orchestrator returns before opening the output sink, so no header row is
written, contradicting the claim that the header is written on every
run including runs with no regions. -/
theorem scrape_no_regions_writes_nothing :
    (scrape_all_clinics wNoRegions).opened = false ∧
    (scrape_all_clinics wNoRegions).file = [] ∧
    (scrape_all_clinics wNoRegions).count = 0 :=
  ⟨rfl, rfl, rfl⟩

/-- Claim C6 (amended): in every run that discovers at least one region
the output sink is opened and the header row — exactly
`Region,Clinic_Name,Address,Phone,Email,Services` — is written before
any data row (also in runs discovering no clinics); a run discovering no
regions never opens the sink. -/
theorem scrape_header_before_rows (w : World)
    (h : extract_regions w.resolve w.listing ≠ []) :
    (scrape_all_clinics w).opened = true ∧
    (scrape_all_clinics w).file.head? = some fieldnames ∧
    String.intercalate "," fieldnames = "Region,Clinic_Name,Address,Phone,Email,Services" := by
  have hne : (extract_regions w.resolve w.listing).isEmpty = false := by
    simpa [List.isEmpty_iff] using h
  unfold scrape_all_clinics
  simp only [hne, Bool.false_eq_true, if_false]
  refine ⟨trivial, ?_, by decide⟩
  obtain ⟨-, e, hf⟩ := foldRegions_step w (extract_regions w.resolve w.listing)
    { seen := []
      records := []
      file := [fieldnames]
      count := 0
      rowIdx := 0
      failed := false } ⟨List.nodup_nil, by simp⟩
  simp only [hf]
  rfl

/-- Witness world with one region and no clinics. -/
def wOneRegion : World :=
  { resolve := id
    listing := some (fun _ => [⟨"/regions/north", "North"⟩])
    regionPage := fun _ => none
    clinicPage := fun _ => none
    extractOk := fun _ => true
    writerowOk := fun _ => true }

/-- Witness for the amended claim C6 at a one-region world. -/
theorem scrape_header_before_rows_witness :
    (scrape_all_clinics wOneRegion).opened = true ∧
    (scrape_all_clinics wOneRegion).file.head? = some fieldnames ∧
    String.intercalate "," fieldnames = "Region,Clinic_Name,Address,Phone,Email,Services" :=
  scrape_header_before_rows wOneRegion (by decide)

/-- Claim C7: on every exit path of `scrape_all_clinics` on which the
output sink was opened — normal completion and every exception raised
inside the `try` body (region iteration, clinic discovery, extraction,
row writing) — the sink is closed. -/
theorem scrape_sink_closed (w : World) (h : (scrape_all_clinics w).opened = true) :
    (scrape_all_clinics w).closed = true := by
  unfold scrape_all_clinics at h ⊢
  by_cases he : (extract_regions w.resolve w.listing).isEmpty = true
  · rw [if_pos he] at h
    exact absurd h (by simp)
  · rw [if_neg he]

/-- Witness world in which the first `writerow` raises: the run fails
but the `finally` still closes the file. -/
def wWriteFails : World :=
  { resolve := id
    listing := some (fun _ => [⟨"/regions/north", "North"⟩])
    regionPage := fun _ => some (fun _ => [⟨"/our-clinics/alpha", "Alpha Clinic"⟩])
    clinicPage := fun _ => some pdAlpha
    extractOk := fun _ => true
    writerowOk := fun _ => false }

/-- Witness for claim C7 on the exception exit path. -/
theorem scrape_sink_closed_witness :
    (scrape_all_clinics wWriteFails).failed = true ∧
    (scrape_all_clinics wWriteFails).closed = true :=
  ⟨by decide, scrape_sink_closed wWriteFails (by decide)⟩

/-- Claim C10: when the fetch succeeds but field extraction raises,
`extract_clinic_details` returns `none` yet the URL stays in the visited
set, so every later encounter in the run is skipped without fetching
(the skip is independent of the world); by contrast a URL whose fetch
failed is not added to the set and a later encounter can still succeed. -/
theorem extract_details_error_paths (w : World) (seen : List String) (url : String) (pd : ClinicPageData) :
    (w.clinicPage url = some pd → w.extractOk url = false → url ∉ seen →
      extract_clinic_details w seen url = (none, url :: seen)) ∧
    (∀ w' : World, url ∈ seen → extract_clinic_details w' seen url = (none, seen)) ∧
    (w.clinicPage url = none → extract_clinic_details w seen url = (none, seen)) ∧
    (w.clinicPage url = some pd → w.extractOk url = true → url ∉ seen →
      (extract_clinic_details w seen url).1 = some (mkClinicData pd url)) := by
  refine ⟨?_, ?_, ?_, ?_⟩
  · intro hp he hn
    unfold extract_clinic_details
    rw [if_neg hn, hp]
    simp [he]
  · intro w' hm
    unfold extract_clinic_details
    rw [if_pos hm]
  · intro hp
    unfold extract_clinic_details
    by_cases hm : url ∈ seen
    · rw [if_pos hm]
    · rw [if_neg hm, hp]
  · intro hp he hn
    unfold extract_clinic_details
    rw [if_neg hn, hp]
    simp [he]

/-- Witness world whose field extraction raises on every page. -/
def wThrows : World :=
  { resolve := id
    listing := none
    regionPage := fun _ => none
    clinicPage := fun _ => some pdAlpha
    extractOk := fun _ => false
    writerowOk := fun _ => true }

/-- Witness for claim C10: extraction raises on the first encounter,
the URL is still marked visited, and the second encounter is skipped. -/
theorem extract_details_error_paths_witness :
    extract_clinic_details wThrows [] "/our-clinics/alpha" =
      (none, ["/our-clinics/alpha"]) ∧
    extract_clinic_details wThrows ["/our-clinics/alpha"] "/our-clinics/alpha" =
      (none, ["/our-clinics/alpha"]) := by
  have h1 := extract_details_error_paths wThrows [] "/our-clinics/alpha" pdAlpha
  have h2 := extract_details_error_paths wThrows ["/our-clinics/alpha"] "/our-clinics/alpha" pdAlpha
  exact ⟨h1.1 rfl rfl (by decide), h2.2.1 wThrows (by decide)⟩

end Scraper
